import Mathlib

/-!
Shallow embedding of the arXiv-paper summarization notebook
(in-context-learning.ipynb) and verification of its specification.

The notebook is a four-stage pipeline: discover papers from a listing
page, extract PDF text, summarize each paper with a hosted model, and
render the results to HTML and markdown.  External effects (HTTP, the
PDF library, the model call) are modelled as explicit data or oracle
functions; everything else is translated directly from the source.
-/

namespace ICL

/-- The record built by the discovery loop (cell-5) and mutated once by
the summarization loop (cell-10).  In the source it is a Python dict;
`summary` is absent until the summarization loop stores a string into
it, hence `Option String` here. -/
structure Paper where
  title : String
  url : String
  summary : Option String
deriving DecidableEq, Repr

/-- Fixed model identifier, cell-8: `LLM = "gemini-1.5-flash"`. -/
def LLM : String := "gemini-1.5-flash"

/-- The instruction text prepended to each paper before the model call,
exactly as written in cell-10 (note: no comma after "formatting", the
word "its", and a trailing space). -/
def instruction : String :=
  "Summarize this research article into one paragraph without formatting highlighting its strengths and weaknesses. "

/-- The body of the `try:` block of cell-10 for one paper:
`model.generate_content(instruction + extract_pdf(paper["url"])).text`.
`extractOracle` models `extract_pdf` on a URL (it may raise, hence
`Except`), `genOracle` models `generate_content(...).text` (any failure
of the call or of the `.text` accessor is `Except.error`).  An error in
either step escapes the body, exactly as a Python exception would. -/
def attemptSummary (extractOracle genOracle : String → Except Unit String)
    (p : Paper) : Except Unit String :=
  match extractOracle p.url with
  | Except.error e => Except.error e
  | Except.ok text => genOracle (instruction ++ text)

/-- One iteration of the cell-10 loop: on success store the model text,
on any exception (`except:`) store the placeholder string. -/
def processPaper (extractOracle genOracle : String → Except Unit String)
    (p : Paper) : Paper :=
  match attemptSummary extractOracle genOracle p with
  | Except.ok s => { p with summary := some s }
  | Except.error _ => { p with summary := some "Paper not available" }

/-- The cell-10 loop: `for paper in tqdm(papers): try ... except ...`,
processing the papers in order, front to back. -/
def summarizeLoop (extractOracle genOracle : String → Except Unit String) :
    List Paper → List Paper
  | [] => []
  | p :: ps =>
      processPaper extractOracle genOracle p ::
        summarizeLoop extractOracle genOracle ps

theorem summarizeLoop_eq_map (extractOracle genOracle : String → Except Unit String)
    (papers : List Paper) :
    summarizeLoop extractOracle genOracle papers =
      papers.map (processPaper extractOracle genOracle) := by
  induction papers with
  | nil => rfl
  | cons p ps ih => simp [summarizeLoop, ih]

/-- Concrete oracles used to evaluate the loop on closed inputs. -/
def extractW : String → Except Unit String :=
  fun u => if u = "u1" then Except.error () else Except.ok "body2"

def genW : String → Except Unit String :=
  fun s => Except.ok ("S:" ++ s)

def paperA : Paper := { title := "A", url := "u1", summary := none }

def paperB : Paper := { title := "B", url := "u2", summary := none }

/-- C1: if producing a summary raises an exception, that paper gets the
placeholder summary and every paper of the list, before or after it, is
still processed by the same per-paper step: no failure aborts the
batch. -/
theorem c1_failure_isolated (extractOracle genOracle : String → Except Unit String)
    (papers : List Paper) (p : Paper)
    (hp : attemptSummary extractOracle genOracle p = Except.error ()) :
    (processPaper extractOracle genOracle p).summary = some "Paper not available" ∧
    summarizeLoop extractOracle genOracle papers =
      papers.map (processPaper extractOracle genOracle) := by
  constructor
  · simp [processPaper, hp]
  · exact summarizeLoop_eq_map extractOracle genOracle papers

theorem c1_failure_isolated_witness :
    (processPaper extractW genW paperA).summary = some "Paper not available" ∧
    summarizeLoop extractW genW [paperA, paperB] =
      [paperA, paperB].map (processPaper extractW genW) :=
  c1_failure_isolated extractW genW [paperA, paperB] paperA rfl

/-- C9: after the loop, every paper has a summary, and the length, the
order and the title and url fields of the list are unchanged. -/
theorem c9_loop_invariants (extractOracle genOracle : String → Except Unit String)
    (papers : List Paper) :
    (summarizeLoop extractOracle genOracle papers).length = papers.length ∧
    (summarizeLoop extractOracle genOracle papers).map Paper.title =
      papers.map Paper.title ∧
    (summarizeLoop extractOracle genOracle papers).map Paper.url =
      papers.map Paper.url ∧
    (summarizeLoop extractOracle genOracle papers).all
      (fun p => p.summary.isSome) = true := by
  rw [summarizeLoop_eq_map]
  refine ⟨by simp, ?_, ?_, ?_⟩
  · simp only [List.map_map]
    apply List.map_congr_left
    intro p _
    simp [processPaper]
    cases attemptSummary extractOracle genOracle p <;> rfl
  · simp only [List.map_map]
    apply List.map_congr_left
    intro p _
    simp [processPaper]
    cases attemptSummary extractOracle genOracle p <;> rfl
  · simp only [List.all_eq_true]
    intro p hp
    simp only [List.mem_map] at hp
    obtain ⟨q, _, rfl⟩ := hp
    simp [processPaper]
    cases attemptSummary extractOracle genOracle q <;> simp

/-- The instruction literal as the specification quotes it (with a comma
after "formatting", without "its", without a trailing space).  Written
from the wording of the spec, for comparison with `instruction`, which
is the literal of cell-10. -/
def claimedInstruction : String :=
  "Summarize this research article into one paragraph without formatting, highlighting strengths and weaknesses."

/-- C5 counterexample: a run in which extraction fails on the first
paper.  The extraction error does not escape the loop: it is converted
into the placeholder summary by the bare `except:` of cell-10 (which
wraps the `extract_pdf` call), and the second paper is still processed.
This contradicts the claim that extraction errors stay uncaught and are
never converted into the placeholder. -/
theorem c5_counterexample :
    extractW paperA.url = Except.error () ∧
    summarizeLoop extractW genW [paperA, paperB] =
      [{ paperA with summary := some "Paper not available" },
       { paperB with summary := some ("S:" ++ (instruction ++ "body2")) }] :=
  ⟨rfl, rfl⟩

/-- C5 amended: `extract_pdf` itself contains no handler, so its errors
propagate to its caller; but that caller is the `try:` body of cell-10,
so an extraction error is caught by the per-paper `except:`, the paper
gets the placeholder summary, and the loop still processes every other
paper. -/
theorem c5_extraction_error_caught
    (extractOracle genOracle : String → Except Unit String)
    (papers : List Paper) (p : Paper)
    (hp : extractOracle p.url = Except.error ()) :
    (processPaper extractOracle genOracle p).summary = some "Paper not available" ∧
    summarizeLoop extractOracle genOracle papers =
      papers.map (processPaper extractOracle genOracle) := by
  constructor
  · simp [processPaper, attemptSummary, hp]
  · exact summarizeLoop_eq_map extractOracle genOracle papers

theorem c5_extraction_error_caught_witness :
    (processPaper extractW genW paperA).summary = some "Paper not available" ∧
    summarizeLoop extractW genW [paperA, paperB] =
      [paperA, paperB].map (processPaper extractW genW) :=
  c5_extraction_error_caught extractW genW [paperA, paperB] paperA rfl

/-- C6 counterexample: with an echo model oracle and a paper whose
extracted text is "T", the prompt submitted to the model is
`instruction ++ "T"`, and that string differs from the instruction
literal quoted by the claim followed by "T". -/
theorem c6_counterexample :
    attemptSummary (fun _ => Except.ok "T") (fun s => Except.ok s) paperA =
      Except.ok (instruction ++ "T") ∧
    instruction ++ "T" ≠ claimedInstruction ++ "T" :=
  ⟨rfl, by decide⟩

/-- C6 amended: for every paper whose extraction succeeds with text `t`,
the prompt submitted to the model equals the exact cell-10 instruction
literal (no comma after "formatting", with "its", with a trailing
space) concatenated with `t`, and the fixed model identifier is
"gemini-1.5-flash". -/
theorem c6_prompt_shape
    (extractOracle genOracle : String → Except Unit String)
    (p : Paper) (t : String)
    (hp : extractOracle p.url = Except.ok t) :
    attemptSummary extractOracle genOracle p =
      genOracle
        ("Summarize this research article into one paragraph without formatting highlighting its strengths and weaknesses. "
          ++ t) ∧
    LLM = "gemini-1.5-flash" := by
  refine ⟨?_, rfl⟩
  simp [attemptSummary, hp]
  rfl

theorem c6_prompt_shape_witness :
    attemptSummary (fun _ => Except.ok "T") genW paperA =
      genW
        ("Summarize this research article into one paragraph without formatting highlighting its strengths and weaknesses. "
          ++ "T") ∧
    LLM = "gemini-1.5-flash" :=
  c6_prompt_shape (fun _ => Except.ok "T") genW paperA "T" rfl

/-- One well-formed heading of the listing page: an `h3` whose anchor
has display text and an `href` attribute, the shape cell-5 reads with
`h3.find("a")`, `a.text` and `a["href"]`. -/
structure Anchor where
  text : String
  href : String
deriving DecidableEq, Repr

/-- Python `str.replace` on character lists: replace every
non-overlapping occurrence of `pat`, scanning left to right.  The fuel
argument only drives termination; it is instantiated with the length of
the input, which suffices because every step consumes at least one
character (the source only calls this with the non-empty pattern
"/papers"). -/
def pyReplaceFuel (pat repl : List Char) : Nat → List Char → List Char
  | 0, s => s
  | _ + 1, [] => []
  | fuel + 1, c :: cs =>
      if pat ≠ [] ∧ pat.isPrefixOf (c :: cs) then
        repl ++ pyReplaceFuel pat repl fuel (cs.drop (pat.length - 1))
      else
        c :: pyReplaceFuel pat repl fuel cs

/-- Python `s.replace(pat, repl)` on strings. -/
def pyReplace (s pat repl : String) : String :=
  ⟨pyReplaceFuel pat.data repl.data s.data.length s.data⟩

/-- The discovery loop of cell-5: start from the empty list and, for
each heading, append a record with the anchor text as title and
`"https://arxiv.org/pdf" ++ link` as url, where
`link = a["href"].replace("/papers", "")`. -/
def discoverPapers (h3s : List Anchor) : List Paper :=
  h3s.foldl
    (fun papers a =>
      papers ++
        [{ title := a.text,
           url := "https://arxiv.org/pdf" ++ pyReplace a.href "/papers" "",
           summary := none }])
    []

theorem foldl_append_singleton {α β : Type} (g : α → β) :
    ∀ (l : List α) (acc : List β),
      l.foldl (fun ps a => ps ++ [g a]) acc = acc ++ l.map g := by
  intro l
  induction l with
  | nil => intro acc; simp
  | cons a l ih => intro acc; simp [ih]

/-- Modelled from the spec claim wording: the url suffix is "its href
with the leading /papers segment substituted away".  Written for
comparison with the source behaviour, which substitutes every
occurrence. -/
def claimUrlSuffix (href : String) : String :=
  if ("/papers" : String).data.isPrefixOf href.data then ⟨href.data.drop 7⟩
  else href

/-- C2 counterexample: a well-formed listing with one heading whose
href is "/a/papers".  The code removes the non-leading occurrence of
"/papers" as well, so the produced url is "https://arxiv.org/pdf/a",
not the prefix concatenated with the href with only a leading
"/papers" removed. -/
theorem c2_counterexample :
    discoverPapers [{ text := "T", href := "/a/papers" }] =
      [{ title := "T", url := "https://arxiv.org/pdf/a", summary := none }] ∧
    "https://arxiv.org/pdf/a" ≠
      "https://arxiv.org/pdf" ++ claimUrlSuffix "/a/papers" := by
  constructor
  · rfl
  · decide

/-- C2 amended: for every listing of N well-formed heading/anchor
pairs, discovery yields exactly N records in document order, the i-th
title being the i-th anchor text and the i-th url being
"https://arxiv.org/pdf" concatenated with the href in which every
occurrence of "/papers" has been replaced by the empty string (Python
`str.replace` substitutes all occurrences, not only a leading one). -/
theorem c2_discovery_map (h3s : List Anchor) :
    discoverPapers h3s =
      h3s.map (fun a =>
        { title := a.text,
          url := "https://arxiv.org/pdf" ++ pyReplace a.href "/papers" "",
          summary := none }) ∧
    (discoverPapers h3s).length = h3s.length := by
  have h : discoverPapers h3s =
      h3s.map (fun a =>
        { title := a.text,
          url := "https://arxiv.org/pdf" ++ pyReplace a.href "/papers" "",
          summary := none }) := by
    have h0 := foldl_append_singleton
      (fun a : Anchor =>
        ({ title := a.text,
           url := "https://arxiv.org/pdf" ++ pyReplace a.href "/papers" "",
           summary := none } : Paper))
      h3s []
    exact h0.trans (List.nil_append _)
  exact ⟨h, by rw [h, List.length_map]⟩

/-- The `extract_pdf` routine of cell-7, with the downloaded and parsed
PDF modelled as the list of per-page extracted texts: starting from the
empty string, append each page text followed by one newline. -/
def extract_pdf (pages : List String) : String :=
  pages.foldl (fun text page => text ++ page ++ "\n") ""

/-- Number of newline characters in a string. -/
def countNewlines (s : String) : Nat := s.data.count '\n'

theorem string_join_cons (s : String) (l : List String) :
    String.join (s :: l) = s ++ String.join l := by
  apply String.ext
  simp [String.data_join, String.data_append]

theorem string_join_nil : String.join ([] : List String) = "" := by
  apply String.ext
  simp [String.data_join]

theorem string_foldl_append (l : List String) :
    ∀ init : String, l.foldl (fun a b => a ++ b) init = init ++ String.join l := by
  induction l with
  | nil => intro init; rw [List.foldl_nil, string_join_nil, String.append_empty]
  | cons s l ih =>
      intro init
      rw [List.foldl_cons, ih (init ++ s), string_join_cons, String.append_assoc]

theorem extract_pdf_foldl (pages : List String) :
    ∀ init : String,
      pages.foldl (fun text page => text ++ page ++ "\n") init =
        init ++ String.join (pages.map (fun p => p ++ "\n")) := by
  induction pages with
  | nil => intro init; rw [List.map_nil, List.foldl_nil, string_join_nil,
      String.append_empty]
  | cons p ps ih =>
      intro init
      rw [List.foldl_cons, ih (init ++ p ++ "\n"), List.map_cons,
        string_join_cons, String.append_assoc, String.append_assoc,
        String.append_assoc]

/-- C3: extraction returns exactly each page text followed by one
newline, concatenated in page order; when no page text itself contains
a newline, the result holds exactly P newline characters for P pages. -/
theorem c3_extract_pdf_pages (pages : List String) :
    extract_pdf pages = String.join (pages.map (fun p => p ++ "\n")) ∧
    ((∀ p ∈ pages, '\n' ∉ p.data) →
      countNewlines (extract_pdf pages) = pages.length) := by
  have hmain : extract_pdf pages =
      String.join (pages.map (fun p => p ++ "\n")) := by
    have h := extract_pdf_foldl pages ""
    rw [extract_pdf, h, String.empty_append]
  refine ⟨hmain, fun hfree => ?_⟩
  rw [hmain]
  clear hmain
  induction pages with
  | nil => rfl
  | cons p ps ih =>
      rw [List.map_cons, string_join_cons]
      have hp : '\n' ∉ p.data := hfree p (List.mem_cons_self p ps)
      have hps := ih (fun q hq => hfree q (List.mem_cons_of_mem p hq))
      simp only [countNewlines, String.data_append] at hps ⊢
      rw [List.count_append, List.count_append, hps,
        List.count_eq_zero_of_not_mem hp]
      simp [Nat.add_comm]

theorem c3_extract_pdf_pages_witness :
    extract_pdf ["ab", "c"] = String.join (["ab", "c"].map (fun p => p ++ "\n")) ∧
    countNewlines (extract_pdf ["ab", "c"]) = 2 :=
  ⟨(c3_extract_pdf_pages ["ab", "c"]).1,
   (c3_extract_pdf_pages ["ab", "c"]).2 (by decide)⟩

/-- Python whitespace, the character class removed by `str.strip()`
(ASCII whitespace; the documents handled here are ASCII). -/
def isPyWs (c : Char) : Bool :=
  c = ' ' || c = '\t' || c = '\n' || c = '\r' || c = '\x0b' || c = '\x0c'

/-- Python `str.strip()`: remove trailing whitespace, then leading
whitespace (the two removals are independent, so this equals removing
both ends of the original). -/
def pyStrip (s : List Char) : List Char :=
  List.dropWhile isPyWs (List.rdropWhile isPyWs s)

/-- Rewrite every line boundary recognized by Python `str.splitlines`
on the texts handled here ("\r\n", "\r", "\n") into a single newline
character. -/
def normalizeNewlines : List Char → List Char
  | [] => []
  | [c] => if c = '\r' then ['\n'] else [c]
  | a :: b :: rest =>
      if a = '\r' then
        if b = '\n' then '\n' :: normalizeNewlines rest
        else '\n' :: normalizeNewlines (b :: rest)
      else a :: normalizeNewlines (b :: rest)

/-- Split on newline characters, keeping every (possibly empty)
segment, the apparatus behind `splitlines`. -/
def splitNlAux (cur : List Char) : List Char → List (List Char)
  | [] => [cur.reverse]
  | c :: cs =>
      if c = '\n' then cur.reverse :: splitNlAux [] cs
      else splitNlAux (c :: cur) cs

/-- Python `str.splitlines()`: split on line boundaries; a terminal
boundary produces no trailing empty line, and the empty string has no
lines at all. -/
def pySplitlines (s : List Char) : List (List Char) :=
  let parts := splitNlAux [] (normalizeNewlines s)
  if parts.getLast? = some [] then parts.dropLast else parts

/-- Python `line.split("  ")`: split on every non-overlapping
occurrence of two consecutive spaces, scanning left to right, keeping
empty segments. -/
def pySplitTwoSpace : List Char → List (List Char)
  | [] => [[]]
  | [c] => [[c]]
  | a :: b :: rest =>
      if a = ' ' ∧ b = ' ' then [] :: pySplitTwoSpace rest
      else
        match pySplitTwoSpace (b :: rest) with
        | [] => [[a]]
        | h :: t => (a :: h) :: t

/-- One element of the parsed page, as `extract_paper` sees it through
BeautifulSoup: a tag name and the text below it.  `soup.get_text()` is
the concatenation of the texts, and `soup(["script", "style"])` selects
the elements whose tag is script or style. -/
structure Elem where
  tag : String
  txt : String
deriving DecidableEq, Repr

/-- The removal loop of `extract_paper`:
`for script in soup(["script", "style"]): script.extract()`. -/
def removeScriptStyle : List Elem → List Elem
  | [] => []
  | e :: es =>
      if e.tag = "script" ∨ e.tag = "style" then removeScriptStyle es
      else e :: removeScriptStyle es

/-- `soup.get_text()` on the element model: the concatenated text. -/
def getText (doc : List Elem) : List Char :=
  (doc.map (fun e => e.txt.data)).flatten

/-- The generator chain of `extract_paper`: strip each line of the
text, split each stripped line on double spaces, strip each fragment,
drop the blank fragments. -/
def chunksOf (text : List Char) : List (List Char) :=
  (((pySplitlines text).map pyStrip).flatMap
      (fun line => (pySplitTwoSpace line).map pyStrip)).filter
    (fun chunk => !chunk.isEmpty)

/-- The `extract_paper` routine of cell-7 on the element model of the
fetched page: kill script and style elements, take the text, and
re-join the cleaned non-blank fragments with newlines. -/
def extract_paper (doc : List Elem) : List Char :=
  List.intercalate ['\n'] (chunksOf (getText (removeScriptStyle doc)))

theorem pyStrip_idem (s : List Char) : pyStrip (pyStrip s) = pyStrip s := by
  unfold pyStrip
  have h1 : List.rdropWhile isPyWs
      (List.dropWhile isPyWs (List.rdropWhile isPyWs s)) =
      List.dropWhile isPyWs (List.rdropWhile isPyWs s) := by
    rw [List.rdropWhile_eq_self_iff]
    intro hne
    obtain ⟨pre, hpre⟩ := List.dropWhile_suffix
      (l := List.rdropWhile isPyWs s) isPyWs
    have hu_ne : List.rdropWhile isPyWs s ≠ [] := by
      intro h
      rw [h] at hne
      simp at hne
    have hq : (List.rdropWhile isPyWs s).getLast? =
        some ((List.dropWhile isPyWs (List.rdropWhile isPyWs s)).getLast hne) := by
      conv_lhs => rw [← hpre]
      rw [List.getLast?_append_of_ne_nil pre hne]
      exact List.getLast?_eq_getLast_of_ne_nil hne
    have hq2 : (List.rdropWhile isPyWs s).getLast hu_ne =
        (List.dropWhile isPyWs (List.rdropWhile isPyWs s)).getLast hne := by
      have := List.getLast?_eq_getLast_of_ne_nil hu_ne
      rw [this] at hq
      exact Option.some.inj hq
    rw [← hq2]
    exact List.rdropWhile_last_not _ _ hu_ne
  rw [h1, List.dropWhile_idempotent]

/-- C7: `extract_paper` removes exactly the script and style elements
before taking the text, and its result is the list of cleaned
fragments re-joined with newlines, where every fragment is non-blank
and carries no leading or trailing whitespace (stripping it again
changes nothing). -/
theorem c7_extract_paper_clean (doc : List Elem) :
    removeScriptStyle doc =
      doc.filter (fun e => !(e.tag == "script" || e.tag == "style")) ∧
    extract_paper doc =
      List.intercalate ['\n'] (chunksOf (getText (removeScriptStyle doc))) ∧
    ∀ chunk ∈ chunksOf (getText (removeScriptStyle doc)),
      chunk ≠ [] ∧ pyStrip chunk = chunk := by
  refine ⟨?_, rfl, ?_⟩
  · induction doc with
    | nil => rfl
    | cons e es ih =>
        by_cases h : e.tag = "script" ∨ e.tag = "style"
        · simp only [removeScriptStyle, if_pos h, List.filter_cons, ih]
          have hb : (e.tag == "script" || e.tag == "style") = true := by
            rcases h with h | h <;> simp [h]
          simp [hb]
        · simp only [removeScriptStyle, if_neg h, List.filter_cons, ih]
          have hb : (e.tag == "script" || e.tag == "style") = false := by
            push_neg at h
            simp [h.1, h.2]
          simp [hb]
  · intro chunk hchunk
    unfold chunksOf at hchunk
    rw [List.mem_filter] at hchunk
    obtain ⟨hmem, hne⟩ := hchunk
    refine ⟨?_, ?_⟩
    · intro habs
      rw [habs] at hne
      simp at hne
    · rw [List.mem_flatMap] at hmem
      obtain ⟨line, _, hline⟩ := hmem
      rw [List.mem_map] at hline
      obtain ⟨phrase, _, rfl⟩ := hline
      exact pyStrip_idem phrase

theorem c7_extract_paper_clean_witness :
    extract_paper [{ tag := "script", txt := "BAD" },
                   { tag := "p", txt := " a  b \n\n c " }] =
      List.intercalate ['\n']
        (chunksOf (getText (removeScriptStyle
          [{ tag := "script", txt := "BAD" },
           { tag := "p", txt := " a  b \n\n c " }]))) ∧
    (['a'] ≠ ([] : List Char) ∧ pyStrip ['a'] = ['a']) :=
  ⟨(c7_extract_paper_clean
      [{ tag := "script", txt := "BAD" },
       { tag := "p", txt := " a  b \n\n c " }]).2.1,
   (c7_extract_paper_clean
      [{ tag := "script", txt := "BAD" },
       { tag := "p", txt := " a  b \n\n c " }]).2.2 ['a'] (by decide)⟩

/-- A paper as the two sinks of cell-12 and cell-14 read it: after the
summarization loop each record has title, url and summary strings. -/
structure FinishedPaper where
  title : String
  url : String
  summary : String
deriving DecidableEq, Repr

/-- The header written first by cell-12, with the date and the model
identifier interpolated. -/
def htmlHeader (today : String) : String :=
  "<html> <head> <h1>Daily Dose of AI Research</h1> <h4>" ++ today ++
    "</h4> <p><i>Summaries generated with: " ++ LLM ++ "</i>"

/-- The per-paper block of cell-12. -/
def htmlBlock (p : FinishedPaper) : String :=
  "<h2><a href=\"" ++ p.url ++ "\">" ++ p.title ++ "</a></h2> <p>" ++
    p.summary ++ "</p>"

/-- The closing fragment appended last by cell-12. -/
def htmlEnd : String := "</head>  </html>"

/-- One operation on the output file: `open(..., "w")` followed by a
write truncates and stores the written string; `open(..., "a")`
followed by a write appends it. -/
inductive FileOp where
  | write (s : String)
  | append (s : String)
deriving DecidableEq, Repr

/-- Replay file operations over the current file content. -/
def runFileOps (init : String) (ops : List FileOp) : String :=
  ops.foldl
    (fun content op =>
      match op with
      | FileOp.write s => s
      | FileOp.append s => content ++ s)
    init

/-- The file operations issued by cell-12 in order: one truncating
write of the header, then one append per paper in list order, then the
closing append. -/
def htmlSinkOps (today : String) (papers : List FinishedPaper) : List FileOp :=
  FileOp.write (htmlHeader today) ::
    (papers.map (fun p => FileOp.append (htmlBlock p)) ++ [FileOp.append htmlEnd])

/-- The content of papers.html after cell-12 runs, starting from
whatever the file held before the run. -/
def papersHtml (today : String) (papers : List FinishedPaper)
    (init : String) : String :=
  runFileOps init (htmlSinkOps today papers)

theorem foldl_block_ops (papers : List FinishedPaper) :
    ∀ content : String,
      (papers.map (fun p => FileOp.append (htmlBlock p))).foldl
        (fun content op =>
          match op with
          | FileOp.write s => s
          | FileOp.append s => content ++ s)
        content = content ++ String.join (papers.map htmlBlock) := by
  induction papers with
  | nil =>
      intro content
      rw [List.map_nil, List.foldl_nil, List.map_nil, string_join_nil,
        String.append_empty]
  | cons p ps ih =>
      intro content
      simp only [List.map_cons, List.foldl_cons]
      rw [ih (content ++ htmlBlock p), string_join_cons, String.append_assoc]

theorem papersHtml_eq (today : String) (papers : List FinishedPaper)
    (init : String) :
    papersHtml today papers init =
      htmlHeader today ++ String.join (papers.map htmlBlock) ++ htmlEnd := by
  unfold papersHtml runFileOps htmlSinkOps
  simp only [List.foldl_cons, List.foldl_append, List.foldl_nil]
  rw [foldl_block_ops papers (htmlHeader today)]

/-- C4: the rendered HTML is exactly the fixed header with the date and
model identifier, followed by one block per paper in sequence order
embedding the title, url and summary of that paper verbatim, then the
closing fragment; the block list has exactly k entries for k papers. -/
theorem c4_html_render (today : String) (papers : List FinishedPaper)
    (init : String) :
    papersHtml today papers init =
      "<html> <head> <h1>Daily Dose of AI Research</h1> <h4>" ++ today ++
        "</h4> <p><i>Summaries generated with: " ++ "gemini-1.5-flash" ++ "</i>" ++
      String.join (papers.map (fun p =>
        "<h2><a href=\"" ++ p.url ++ "\">" ++ p.title ++ "</a></h2> <p>" ++
          p.summary ++ "</p>")) ++
      "</head>  </html>" ∧
    (papers.map htmlBlock).length = papers.length := by
  refine ⟨?_, by rw [List.length_map]⟩
  rw [papersHtml_eq]
  rfl

/-- C10: cell-12 truncates papers.html before appending, so the final
content does not depend on what the file held before the run, and is
exactly header, per-paper blocks, closing fragment. -/
theorem c10_no_prior_content (today : String) (papers : List FinishedPaper)
    (init init2 : String) :
    papersHtml today papers init = papersHtml today papers init2 ∧
    papersHtml today papers init =
      htmlHeader today ++ String.join (papers.map htmlBlock) ++ htmlEnd := by
  rw [papersHtml_eq, papersHtml_eq]
  exact ⟨rfl, rfl⟩

/-- The markdown block of cell-14:
`"**[{}]({})**<br>{}<br><br>".format(title, url, summary)`. -/
def mdBlock (p : FinishedPaper) : String :=
  "**[" ++ p.title ++ "](" ++ p.url ++ ")**<br>" ++ p.summary ++ "<br><br>"

/-- The state the two sinks touch: the shared finished paper list, the
content of papers.html, and the markdown strings displayed so far. -/
structure RenderState where
  papers : List FinishedPaper
  file : String
  shown : List String
deriving DecidableEq, Repr

/-- Cell-12 as a state transformer: it rewrites the output file from
the paper list and touches nothing else. -/
def runHtmlSink (today : String) (s : RenderState) : RenderState :=
  { s with file := papersHtml today s.papers s.file }

/-- Cell-14 as a state transformer: one printmd per paper, in list
order, and nothing else changes. -/
def runMdSink (s : RenderState) : RenderState :=
  { s with shown := s.shown ++ s.papers.map mdBlock }

/-- C8: the two sinks commute (either order produces the same state),
neither changes the paper list, and each emits exactly one record per
paper in sequence order carrying the title, url and summary of it
verbatim. -/
theorem c8_sinks_commute (today : String) (s : RenderState) :
    runHtmlSink today (runMdSink s) = runMdSink (runHtmlSink today s) ∧
    (runHtmlSink today s).papers = s.papers ∧
    (runMdSink s).papers = s.papers ∧
    (runMdSink s).shown = s.shown ++ s.papers.map (fun p =>
      "**[" ++ p.title ++ "](" ++ p.url ++ ")**<br>" ++ p.summary ++ "<br><br>") ∧
    (runHtmlSink today s).file =
      htmlHeader today ++ String.join (s.papers.map htmlBlock) ++ htmlEnd :=
  ⟨rfl, rfl, rfl, rfl, papersHtml_eq today s.papers s.file⟩

end ICL
